import Mathlib

/-!
# Transport layer of the Conch shell client (`pkg/conch/sling.go`)

A shallow embedding of `Conch.sling` (lazy initialisation, authentication
attachment, the `CheckRedirect` closure) and of `Conch.httpDo` (response
classification), followed by the properties proved about them.

Library calls the Go code makes are embedded by what they do:
`encoding/json.Unmarshal` is a syntax check followed by a type directed
decode, `ioutil.ReadAll` hands back the bytes of the body together with the
error the read ended with, `http.Client.Do` is represented by the pair it
returned, and a cookie jar by the `SetCookies` calls it received.
-/

set_option autoImplicit false

namespace ConchShell

/-! ## Go errors -/

/-- Modelled from the spec: the error variables `ErrNotAuthorized`,
`ErrForbidden`, `ErrDataNotFound` and `ErrHTTPNotOk` are declared outside
`sling.go`; they are the four named errors of the taxonomy, each a value of
its own.  The type collects the Go `error` values that reach `httpDo` and
`CheckRedirect`: besides the four, `errorsNew` is a value made by
`errors.New`, `errorf` one made by `fmt.Errorf`, `syntaxError` and
`unmarshalTypeError` are the two kinds of error `json.Unmarshal` reports
here, and `other` stands for an error produced by the transport or by
reading a body, told apart by a tag. -/
inductive GoError where
  | ErrNotAuthorized
  | ErrForbidden
  | ErrDataNotFound
  | ErrHTTPNotOk
  | errorsNew (msg : String)
  | errorf (msg : String)
  | syntaxError
  | unmarshalTypeError
  | other (tag : Nat)
  deriving DecidableEq, Repr

/-- The text `err.Error()` gives for the errors whose text this file knows. -/
def GoError.message : GoError → Option String
  | .errorsNew m => some m
  | .errorf m => some m
  | _ => none

/-! ## `encoding/json` -/

/-- A JSON document as `encoding/json` sees it after its syntax check. -/
inductive JSON where
  | null
  | bool (b : Bool)
  | number (lit : List Char)
  | string (s : String)
  | array (xs : List JSON)
  | object (members : List (String × JSON))

/-- White space between JSON tokens: space, tab, carriage return, line feed. -/
def isSpace (c : Char) : Bool :=
  c == ' ' || c == '\t' || c == '\r' || c == '\n'

/-- Drop leading white space. -/
def skipSpace : List Char → List Char
  | [] => []
  | c :: cs => if isSpace c then skipSpace cs else c :: cs

/-- Value of a hexadecimal digit. -/
def hexVal (c : Char) : Option Nat :=
  if '0' ≤ c ∧ c ≤ '9' then some (c.toNat - '0'.toNat)
  else if 'a' ≤ c ∧ c ≤ 'f' then some (c.toNat - 'a'.toNat + 10)
  else if 'A' ≤ c ∧ c ≤ 'F' then some (c.toNat - 'A'.toNat + 10)
  else none

/-- The four hexadecimal digits of a `\u` escape, as a number. -/
def hex4 (a b c d : Char) : Option Nat :=
  match hexVal a, hexVal b, hexVal c, hexVal d with
  | some x, some y, some z, some w => some (x * 4096 + y * 256 + z * 16 + w)
  | _, _, _, _ => none

/-- One unit of a string literal: a character written as itself (or through
a one letter escape), or the number written by a `\u` escape. -/
inductive StrUnit where
  | lit (c : Char)
  | esc (n : Nat)

/-- The character a one letter escape stands for. -/
def escapeChar (e : Char) : Option Char :=
  if e = '"' then some '"'
  else if e = '\\' then some '\\'
  else if e = '/' then some '/'
  else if e = 'b' then some (Char.ofNat 8)
  else if e = 'f' then some (Char.ofNat 12)
  else if e = 'n' then some '\n'
  else if e = 'r' then some '\r'
  else if e = 't' then some '\t'
  else none

/-- Scan a string literal after its opening quote up to and including the
closing quote; gives the units of the literal and the rest of the input.
Control characters, unknown escapes and a missing closing quote are syntax
errors. -/
def scanString : List Char → Option (List StrUnit × List Char)
  | [] => none
  | c :: rest =>
    if c = '"' then some ([], rest)
    else if c = '\\' then
      match rest with
      | [] => none
      | e :: rest1 =>
        if e = 'u' then
          match rest1 with
          | a :: b :: c1 :: d :: rest2 =>
            match hex4 a b c1 d, scanString rest2 with
            | some n, some (us, out) => some (StrUnit.esc n :: us, out)
            | _, _ => none
          | _ => none
        else
          match escapeChar e, scanString rest1 with
          | some x, some (us, out) => some (StrUnit.lit x :: us, out)
          | _, _ => none
    else if c.toNat < 32 then none
    else
      match scanString rest with
      | some (us, out) => some (StrUnit.lit c :: us, out)
      | none => none

/-- The Unicode replacement character U+FFFD. -/
def replacementChar : Char := Char.ofNat 0xFFFD

/-- Turn the units of a literal into characters the way `unquote` does: a
high surrogate escape directly followed by a low surrogate escape is one
character, any other surrogate escape is U+FFFD. -/
def unquoteUnits : List StrUnit → List Char
  | [] => []
  | StrUnit.lit c :: us => c :: unquoteUnits us
  | StrUnit.esc hi :: StrUnit.esc lo :: us =>
    if 0xD800 ≤ hi ∧ hi < 0xDC00 ∧ 0xDC00 ≤ lo ∧ lo < 0xE000 then
      Char.ofNat ((hi - 0xD800) * 1024 + (lo - 0xDC00) + 0x10000) :: unquoteUnits us
    else if 0xD800 ≤ hi ∧ hi < 0xE000 then
      replacementChar :: unquoteUnits (StrUnit.esc lo :: us)
    else Char.ofNat hi :: unquoteUnits (StrUnit.esc lo :: us)
  | StrUnit.esc n :: us =>
    if 0xD800 ≤ n ∧ n < 0xE000 then replacementChar :: unquoteUnits us
    else Char.ofNat n :: unquoteUnits us

/-- A string literal after its opening quote: its value and what follows. -/
def parseString (cs : List Char) : Option (String × List Char) :=
  match scanString cs with
  | some (us, rest) => some (String.mk (unquoteUnits us), rest)
  | none => none

/-- Longest run of decimal digits at the head of the input, and the rest. -/
def spanDigits : List Char → List Char × List Char
  | [] => ([], [])
  | c :: cs =>
    if c.isDigit then ((spanDigits cs).1.cons c, (spanDigits cs).2)
    else ([], c :: cs)

/-- Integer part of a number: `0`, or a non-zero digit and more digits. -/
def scanInt : List Char → Option (List Char × List Char)
  | [] => none
  | c :: cs =>
    if c = '0' then some (['0'], cs)
    else if c.isDigit then some (c :: (spanDigits cs).1, (spanDigits cs).2)
    else none

/-- Optional fraction: a dot and at least one digit. -/
def scanFrac : List Char → Option (List Char × List Char)
  | '.' :: cs =>
    match spanDigits cs with
    | ([], _) => none
    | (ds, rest) => some ('.' :: ds, rest)
  | cs => some ([], cs)

/-- Optional exponent: `e` or `E`, an optional sign, at least one digit. -/
def scanExp : List Char → Option (List Char × List Char)
  | [] => some ([], [])
  | c :: cs =>
    if c = 'e' ∨ c = 'E' then
      match cs with
      | [] => none
      | s :: cs1 =>
        if s = '+' ∨ s = '-' then
          match spanDigits cs1 with
          | ([], _) => none
          | (ds, rest) => some (c :: s :: ds, rest)
        else
          match spanDigits (s :: cs1) with
          | ([], _) => none
          | (ds, rest) => some (c :: ds, rest)
    else some ([], c :: cs)

/-- A number literal at the head of the input: its text and the rest. -/
def scanNumber (cs : List Char) : Option (List Char × List Char) :=
  let signed : List Char × List Char :=
    match cs with
    | '-' :: r => (['-'], r)
    | r => ([], r)
  match scanInt signed.2 with
  | none => none
  | some (i, r1) =>
    match scanFrac r1 with
    | none => none
    | some (f, r2) =>
      match scanExp r2 with
      | none => none
      | some (e, r3) => some (signed.1 ++ i ++ f ++ e, r3)

mutual
/-- A JSON value at the head of the input (white space already skipped). -/
def parseValue : Nat → List Char → Option (JSON × List Char)
  | 0, _ => none
  | fuel + 1, cs =>
    match cs with
    | 'n' :: 'u' :: 'l' :: 'l' :: rest => some (JSON.null, rest)
    | 't' :: 'r' :: 'u' :: 'e' :: rest => some (JSON.bool true, rest)
    | 'f' :: 'a' :: 'l' :: 's' :: 'e' :: rest => some (JSON.bool false, rest)
    | '"' :: rest =>
      match parseString rest with
      | some (s, out) => some (JSON.string s, out)
      | none => none
    | '[' :: rest =>
      match skipSpace rest with
      | ']' :: out => some (JSON.array [], out)
      | inner =>
        match parseElems fuel inner with
        | some (xs, out) => some (JSON.array xs, out)
        | none => none
    | '{' :: rest =>
      match skipSpace rest with
      | '}' :: out => some (JSON.object [], out)
      | inner =>
        match parseMembers fuel inner with
        | some (ms, out) => some (JSON.object ms, out)
        | none => none
    | _ =>
      match scanNumber cs with
      | some (lit, out) => some (JSON.number lit, out)
      | none => none
/-- The elements of an array from its first value to the closing bracket. -/
def parseElems : Nat → List Char → Option (List JSON × List Char)
  | 0, _ => none
  | fuel + 1, cs =>
    match parseValue fuel cs with
    | none => none
    | some (v, rest) =>
      match skipSpace rest with
      | ',' :: more =>
        match parseElems fuel (skipSpace more) with
        | some (vs, out) => some (v :: vs, out)
        | none => none
      | ']' :: out => some ([v], out)
      | _ => none
/-- The members of an object from its first key to the closing brace. -/
def parseMembers : Nat → List Char → Option (List (String × JSON) × List Char)
  | 0, _ => none
  | fuel + 1, cs =>
    match cs with
    | '"' :: rest =>
      match parseString rest with
      | none => none
      | some (k, r1) =>
        match skipSpace r1 with
        | ':' :: r2 =>
          match parseValue fuel (skipSpace r2) with
          | none => none
          | some (v, r3) =>
            match skipSpace r3 with
            | ',' :: more =>
              match parseMembers fuel (skipSpace more) with
              | some (ms, out) => some ((k, v) :: ms, out)
              | none => none
            | '}' :: out => some ([(k, v)], out)
            | _ => none
        | _ => none
    | _ => none
end

/-- The syntax check and tree building `json.Unmarshal` starts with: one
value, white space allowed around it, nothing else.  The fuel is more than
twice the length of the text, which is enough for every text
(`parseJSON_of_parseValue`, `parseJSON_fuel_stable`). -/
def parseJSON (body : String) : Option JSON :=
  match parseValue (2 * body.length + 2) (skipSpace body.toList) with
  | some (v, rest) => if skipSpace rest = [] then some v else none
  | none => none

/-- Generic `json.Unmarshal(body, v)`: the text is checked first, and a text
that is not JSON leaves `v` as it was and gives a syntax error; otherwise
the value is stored into `v` by `dec`, the decoder of the Go type of `v`. -/
def Unmarshal {α : Type} (dec : JSON → α → α × Option GoError) (body : String) (v : α) :
    α × Option GoError :=
  match parseJSON body with
  | none => (v, some GoError.syntaxError)
  | some j => dec j v

/-- The anonymous struct `struct { Error string }` tagged `json:"error"`. -/
structure ErrorStruct where
  Error : String
  deriving DecidableEq, Repr

/-- Whether an object key selects the field tagged `error`: the same text,
or the same up to the case of ASCII letters. -/
def isErrorKey (key : String) : Bool :=
  key == "error" || key.toList.map Char.toLower == "error".toList

/-- Store a JSON value into a Go `string`: a string is stored, `null` leaves
the field alone, anything else is a type error and leaves the field alone. -/
def storeString (cur : String) : JSON → String × Bool
  | JSON.string s => (s, false)
  | JSON.null => (cur, false)
  | _ => (cur, true)

/-- Walk the members of an object, storing those whose key selects `Error`;
the flag records whether a type error was met on the way. -/
def storeErrorMembers (cur : String) (bad : Bool) : List (String × JSON) → String × Bool
  | [] => (cur, bad)
  | (k, v) :: ms =>
    if isErrorKey k then
      storeErrorMembers (storeString cur v).1 (bad || (storeString cur v).2) ms
    else storeErrorMembers cur bad ms

/-- Decoder of `json.Unmarshal` for a pointer to `ErrorStruct`: `null` is a
no-op, an object is walked member by member, any other value is a type
error. -/
def decodeErrorStruct (j : JSON) (aerr : ErrorStruct) : ErrorStruct × Option GoError :=
  match j with
  | JSON.null => (aerr, none)
  | JSON.object ms =>
    let r := storeErrorMembers aerr.Error false ms
    (ErrorStruct.mk r.1, if r.2 then some GoError.unmarshalTypeError else none)
  | _ => (aerr, some GoError.unmarshalTypeError)

/-- Decoder of `json.Unmarshal` for a pointer to an empty `interface{}`: the
target becomes the decoded document. -/
def decodeInterface (j : JSON) (_old : Option JSON) : Option JSON × Option GoError :=
  (some j, none)

/-! ## `net/http` values -/

/-- `http.StatusUnauthorized`. -/
def StatusUnauthorized : Int := 401

/-- `http.StatusForbidden`. -/
def StatusForbidden : Int := 403

/-- `http.StatusNotFound`. -/
def StatusNotFound : Int := 404

/-- A response body as `ioutil.ReadAll` finds it: the bytes it delivers,
taken as text, and the error the read ends with (`none` when the body ends
cleanly). -/
structure Body where
  content : String
  readErr : Option GoError
  deriving DecidableEq, Repr

/-- The part of `http.Response` that `httpDo` reads. -/
structure Response where
  StatusCode : Int
  Body : Body
  deriving DecidableEq, Repr

/-- `ioutil.ReadAll(res.Body)`. -/
def ioutilReadAll (b : Body) : String × Option GoError :=
  (b.content, b.readErr)

/-- What `httpDo` hands back, together with the state of the target `data`
points to after the call (`none` for a nil `data`). -/
structure DoResult (α : Type) where
  res : Option Response
  err : Option GoError
  data : Option α

/-- `Conch.httpDo` (sling.go 123-165).  `done` is the pair returned by
`c.HTTPClient.Do(req)`; `data` is the target the caller passed (`none` for
nil) and `dec` the decoder `json.Unmarshal` uses for its Go type. -/
def httpDo {α : Type} (dec : JSON → α → α × Option GoError)
    (done : Option Response × Option GoError) (data : Option α) : DoResult α :=
  match done with
  | (none, err) => DoResult.mk none err data
  | (some res, some err) => DoResult.mk (some res) (some err) data
  | (some res, none) =>
    if res.StatusCode = StatusUnauthorized then
      DoResult.mk (some res) (some GoError.ErrNotAuthorized) data
    else if res.StatusCode = StatusForbidden then
      DoResult.mk (some res) (some GoError.ErrForbidden) data
    else if res.StatusCode = StatusNotFound then
      DoResult.mk (some res) (some GoError.ErrDataNotFound) data
    else
      match ioutilReadAll res.Body with
      | (_, some err) => DoResult.mk (some res) (some err) data
      | (bodyBytes, none) =>
        if 200 ≤ res.StatusCode ∧ res.StatusCode < 300 then
          match data with
          | some v => DoResult.mk (some res) none (some (Unmarshal dec bodyBytes v).1)
          | none => DoResult.mk (some res) none none
        else
          match Unmarshal decodeErrorStruct bodyBytes (ErrorStruct.mk "") with
          | (aerr, none) => DoResult.mk (some res) (some (GoError.errorsNew aerr.Error)) data
          | (_, some _) => DoResult.mk (some res) (some GoError.ErrHTTPNotOk) data

/-! ## Headers, requests and the redirect policy -/

/-- An `http.Header`: the Go map from header name to its values. -/
def Header : Type := String → Option (List String)

/-- The empty header map. -/
def Header.empty : Header := fun _ => none

/-- Map assignment `h[key] = values`. -/
def Header.assign (h : Header) (key : String) (values : List String) : Header :=
  fun k => if k = key then some values else h k

/-- The method `h.Set(key, value)` for a key already in canonical form. -/
def Header.Set (h : Header) (key value : String) : Header :=
  h.assign key [value]

/-- The part of `url.URL` the redirect policy reads. -/
structure URL where
  Host : String
  deriving DecidableEq, Repr

/-- The part of `http.Request` the redirect policy reads and writes.  The
header map of a redirected request is an allocated map (`net/http` builds
it with `make`), so an assignment to it always goes through. -/
structure Request where
  URL : URL
  Header : Header

/-- The closure stored in `CheckRedirect` (sling.go 60-81).  Gives the
redirected request as the closure leaves it and the error it returns. -/
def CheckRedirect (req : Request) (via : List Request) : Request × Option GoError :=
  if via.length > 30 then
    (req, some (GoError.errorf (toString via.length ++ " > 30 consecutive requests(redirects)")))
  else
    match via with
    | [] => (req, none)
    | first :: _ =>
      if req.URL.Host = first.URL.Host then
        match first.Header "Authorization" with
        | some h => (Request.mk req.URL (req.Header.assign "Authorization" h), none)
        | none => (req, none)
      else (req, none)

/-! ## The client and `sling()` -/

/-- `defaultUA`. -/
def defaultUA : String := "go-conch"

/-- `defaultBaseURL`. -/
def defaultBaseURL : String := "https://conch.joyent.us"

/-- An `http.Cookie`, by the two fields `sling()` fills in. -/
structure Cookie where
  Name : String
  Value : String
  deriving DecidableEq, Repr

/-- One `SetCookies(u, cookies)` call received by a jar; `url` is the text
`u` was parsed from. -/
structure SetCookiesCall where
  url : String
  cookies : List Cookie
  deriving DecidableEq, Repr

/-- The `http.RoundTripper` of a client: the package level
`defaultTransport`, or one supplied by the caller. -/
inductive Transport where
  | defaultTransport
  | custom (id : Nat)
  deriving DecidableEq, Repr

/-- The `CheckRedirect` field of a client: nil, the closure of `sling()`
(`CheckRedirect` above), or a function supplied by the caller. -/
inductive RedirectPolicy where
  | unset
  | preserveAuth
  | custom (id : Nat)
  deriving DecidableEq, Repr

/-- An `*http.Client`: its address and the three fields `sling()` sets. -/
structure HTTPClient where
  addr : Nat
  Transport : Transport
  Jar : Option Nat
  CheckRedirect : RedirectPolicy
  deriving DecidableEq, Repr

/-- Modelled from the spec: the `Conch` struct is declared outside
`sling.go`; these are the fields `sling.go` uses, the base URL, the user
agent, the two credentials, the cookie jar and the HTTP client of the data
model.  `CookieJar` holds the address of a jar, `none` for nil. -/
structure Conch where
  UA : String
  BaseURL : String
  CookieJar : Option Nat
  HTTPClient : Option HTTPClient
  JWToken : String
  Session : String
  Expires : Int
  deriving DecidableEq, Repr

/-- The objects behind the pointers: for every cookie jar allocated so far
the `SetCookies` calls it has received (oldest first), indexed by address,
and the number of HTTP clients allocated so far. -/
structure Heap where
  jars : List (List SetCookiesCall)
  clients : Nat
  deriving DecidableEq, Repr

/-- `cookiejar.New(nil)`: a new jar that has received no call; its address
is the next free one. -/
def Heap.newJar (h : Heap) : Nat × Heap :=
  (h.jars.length, Heap.mk (h.jars ++ [[]]) h.clients)

/-- The method `jar.SetCookies(u, cookies)` on the jar at `addr`. -/
def Heap.SetCookies (h : Heap) (addr : Nat) (call : SetCookiesCall) : Heap :=
  Heap.mk (h.jars.modify (fun calls => calls ++ [call]) addr) h.clients

/-- The calls the jar at `addr` has received. -/
def Heap.jarCalls (h : Heap) (addr : Nat) : List SetCookiesCall :=
  h.jars.getD addr []

/-- The `*sling.Sling` that `sling()` returns: the HTTP client, the base
URL and the headers every request built from it carries. -/
structure Sling where
  httpClient : Option HTTPClient
  rawURL : String
  header : Header

/-- Result of `sling()`: the client struct and the heap as the call leaves
them, and the returned builder. -/
structure SlingResult where
  conch : Conch
  heap : Heap
  sling : Sling

/-- Lines 40-50 of `sling()`: defaults for `UA`, `BaseURL` and `CookieJar`. -/
def Conch.initFields (c : Conch) (h : Heap) : Conch × Heap :=
  let c1 : Conch := if c.UA = "" then { c with UA := defaultUA } else c
  let c2 : Conch := if c1.BaseURL = "" then { c1 with BaseURL := defaultBaseURL } else c1
  match c2.CookieJar with
  | none => ({ c2 with CookieJar := some h.newJar.1 }, h.newJar.2)
  | some _ => (c2, h)

/-- Lines 52-83 of `sling()`: build the HTTP client when there is none. -/
def Conch.initClient (c : Conch) (h : Heap) : Conch × Heap :=
  match c.HTTPClient with
  | none =>
    ({ c with HTTPClient := some (HTTPClient.mk h.clients Transport.defaultTransport
        c.CookieJar RedirectPolicy.preserveAuth) },
      Heap.mk h.jars (h.clients + 1))
  | some _ => (c, h)

/-- Lines 40-83 of `sling()`: the lazy initialisation of the four
configuration fields. -/
def Conch.lazyInit (c : Conch) (h : Heap) : Conch × Heap :=
  (c.initFields h).1.initClient (c.initFields h).2

/-- `Conch.sling` (sling.go 39-111).  The last `match` has no nil case in
the Go code: the jar was set by the lazy initialisation. -/
def Conch.sling (c : Conch) (h : Heap) : SlingResult :=
  let c3 := (c.lazyInit h).1
  let h3 := (c.lazyInit h).2
  let s : Sling := Sling.mk c3.HTTPClient c3.BaseURL (Header.empty.Set "User-Agent" c3.UA)
  if c3.JWToken ≠ "" then
    SlingResult.mk c3 h3 (Sling.mk s.httpClient s.rawURL
      (s.header.Set "Authorization" ("Bearer " ++ c3.JWToken)))
  else if c3.Session ≠ "" then
    match c3.CookieJar with
    | some jar =>
      SlingResult.mk c3 (h3.SetCookies jar
        (SetCookiesCall.mk c3.BaseURL [Cookie.mk "conch" c3.Session])) s
    | none => SlingResult.mk c3 h3 s
  else SlingResult.mk c3 h3 s

/-! ## JSON text of an error body -/

/-- Hexadecimal digit (lower case) of a number below sixteen. -/
def hexDigit (n : Nat) : Char :=
  if n < 10 then Char.ofNat (48 + n) else Char.ofNat (87 + n)

/-- How a character is written inside a JSON string literal: the quote and
the backslash behind a backslash, a control character as a `\u` escape,
any other character as itself. -/
def quoteChar (c : Char) : List Char :=
  if c = '"' then ['\\', '"']
  else if c = '\\' then ['\\', '\\']
  else if c.toNat < 32 then
    ['\\', 'u', '0', '0', hexDigit (c.toNat / 16), hexDigit (c.toNat % 16)]
  else [c]

/-- The characters of a string as written inside a JSON string literal. -/
def quoteChars : List Char → List Char
  | [] => []
  | c :: cs => quoteChar c ++ quoteChars cs

/-- The JSON string literal for `X`. -/
def jsonQuote (X : String) : String :=
  String.mk ('"' :: (quoteChars X.toList ++ ['"']))

/-- The JSON text of the object whose only member is `error` with the
string value `X`, written without white space. -/
def errorBody (X : String) : String :=
  "\x7b\"error\":" ++ jsonQuote X ++ "\x7d"

/-- The unit `scanString` reads back for a character written by
`quoteChar`. -/
def unitOf (c : Char) : StrUnit :=
  if c.toNat < 32 then StrUnit.esc c.toNat else StrUnit.lit c

/-! ## Sample inputs -/

/-- A request to `host` carrying the given headers. -/
def requestTo (host : String) (hdr : Header) : Request :=
  Request.mk (URL.mk host) hdr

/-- A header map holding only `Authorization: Bearer abc123`. -/
def bearerHeader : Header :=
  Header.empty.Set "Authorization" "Bearer abc123"

/-- A response with the given status whose body reads cleanly. -/
def responseWith (status : Int) (content : String) : Response :=
  Response.mk status (Body.mk content none)

/-- A response with the given status whose body cannot be read. -/
def responseUnreadable (status : Int) : Response :=
  Response.mk status (Body.mk "" (some (GoError.other 7)))

/-- A client on which nothing has been configured but a session value. -/
def sessionClient : Conch :=
  Conch.mk "" "" none none "" "s3ss10n" 0

/-- A client the caller configured in full, with a bearer token and a
session value. -/
def bearerClient : Conch :=
  Conch.mk "my-agent" "https://conch.example" (some 0)
    (some (HTTPClient.mk 0 (Transport.custom 1) none RedirectPolicy.unset)) "abc123" "s3ss10n" 0

/-- A client with a session value whose jar and base URL the caller
configured. -/
def sessionJarClient : Conch :=
  Conch.mk "" "http://localhost:5001" (some 0) none "" "s3ss10n" 0

/-- A heap with no object allocated. -/
def emptyHeap : Heap := Heap.mk [] 0

/-- A heap with one empty jar and one HTTP client allocated. -/
def oneJarHeap : Heap := Heap.mk [[]] 1

/-! ## Facts about the JSON reader -/

theorem hex4_control (n : Nat) (h : n < 32) :
    hex4 '0' '0' (hexDigit (n / 16)) (hexDigit (n % 16)) = some n := by
  interval_cases n <;> rfl

theorem scanString_quoteChars (xs rest : List Char) :
    scanString (quoteChars xs ++ '"' :: rest) = some (xs.map unitOf, rest) := by
  induction xs with
  | nil => rw [quoteChars, List.nil_append, scanString.eq_def]; simp
  | cons c cs ih =>
    by_cases h1 : c = '"'
    · subst h1
      simp only [quoteChars, quoteChar, if_true, List.cons_append, List.nil_append]
      rw [scanString.eq_def]
      simp [escapeChar, ih, unitOf]
    · by_cases h2 : c = '\\'
      · subst h2
        simp only [quoteChars, quoteChar, if_true, List.cons_append, List.nil_append]
        rw [scanString.eq_def]
        simp [escapeChar, ih, unitOf]
      · by_cases h3 : c.toNat < 32
        · simp only [quoteChars, quoteChar, h1, h2, h3, if_true, if_false, List.cons_append, List.nil_append]
          rw [scanString.eq_def]
          simp [ih, unitOf, hex4_control, h3]
        · simp only [quoteChars, quoteChar, h1, h2, h3, if_true, if_false, List.cons_append, List.nil_append]
          rw [scanString.eq_def]
          simp [h1, h2, h3, ih, unitOf]

theorem unquoteUnits_esc_small (n : Nat) (us : List StrUnit) (h : n < 32) :
    unquoteUnits (StrUnit.esc n :: us) = Char.ofNat n :: unquoteUnits us := by
  have h1 : ¬ (0xD800 ≤ n) := by omega
  rcases us with _ | ⟨u, us⟩
  · simp [unquoteUnits, h1]
  · cases u <;> simp [unquoteUnits, h1]

theorem unquoteUnits_unitOf (xs : List Char) : unquoteUnits (xs.map unitOf) = xs := by
  induction xs with
  | nil => simp [unquoteUnits]
  | cons c cs ih =>
    by_cases h : c.toNat < 32
    · simp only [List.map_cons, unitOf, h, if_true]
      rw [unquoteUnits_esc_small _ _ h, ih]
      simp [Char.ofNat_toNat]
    · simp only [List.map_cons, unitOf, h, if_false]
      simp [unquoteUnits, ih]

theorem parseString_quoteChars (xs rest : List Char) :
    parseString (quoteChars xs ++ '"' :: rest) = some (String.mk xs, rest) := by
  simp [parseString, scanString_quoteChars, unquoteUnits_unitOf]

theorem errorBody_toList (X : String) :
    (errorBody X).toList =
      '{' :: '"' :: 'e' :: 'r' :: 'r' :: 'o' :: 'r' :: '"' :: ':' :: '"' ::
        (quoteChars X.toList ++ '"' :: ['}']) := by
  simp [errorBody, jsonQuote]

theorem parseString_errorKey (r : List Char) :
    parseString ('e' :: 'r' :: 'r' :: 'o' :: 'r' :: '"' :: r) = some ("error", r) :=
  parseString_quoteChars ['e', 'r', 'r', 'o', 'r'] r

theorem parseMembers_errorBody (fuel : Nat) (xs rest : List Char) :
    parseMembers (fuel + 2)
      ('"' :: 'e' :: 'r' :: 'r' :: 'o' :: 'r' :: '"' :: ':' :: '"' ::
        (quoteChars xs ++ '"' :: '}' :: rest))
      = some ([("error", JSON.string (String.mk xs))], rest) := by
  rw [parseMembers.eq_def]
  simp only [parseString_errorKey]
  simp [skipSpace, isSpace]
  rw [parseValue.eq_def]
  simp [parseString_quoteChars, skipSpace, isSpace]

theorem parseValue_errorBody (fuel : Nat) (xs rest : List Char) :
    parseValue (fuel + 3)
      ('{' :: '"' :: 'e' :: 'r' :: 'r' :: 'o' :: 'r' :: '"' :: ':' :: '"' ::
        (quoteChars xs ++ '"' :: '}' :: rest))
      = some (JSON.object [("error", JSON.string (String.mk xs))], rest) := by
  rw [parseValue.eq_def]
  simp [skipSpace, isSpace, parseMembers_errorBody]

theorem parseJSON_errorBody (X : String) :
    parseJSON (errorBody X) = some (JSON.object [("error", JSON.string X)]) := by
  unfold parseJSON
  rw [errorBody_toList]
  have hlen : 2 * (errorBody X).length + 2 = (2 * (errorBody X).length - 1) + 3 := by
    have h0 : (errorBody X).length = (errorBody X).toList.length := rfl
    rw [h0, errorBody_toList]
    simp only [List.length_cons]
    omega
  rw [hlen]
  simp [skipSpace, isSpace, parseValue_errorBody]

/-! ## The fuel of the JSON reader is enough -/

theorem skipSpace_length_le (cs : List Char) : (skipSpace cs).length ≤ cs.length := by
  induction cs with
  | nil => simp [skipSpace]
  | cons c cs ih =>
    simp only [skipSpace]
    split
    · simp only [List.length_cons]; omega
    · exact Nat.le_refl _

theorem scanString_length_le (n : Nat) :
    ∀ cs us rest, cs.length ≤ n → scanString cs = some (us, rest) → rest.length ≤ cs.length := by
  induction n with
  | zero =>
    intro cs us rest hn h
    cases cs with
    | nil => simp [scanString] at h
    | cons c cs => simp at hn
  | succ n ih =>
    intro cs us rest hn h
    rw [scanString.eq_def] at h
    split at h
    · simp at h
    · rename_i c tl
      simp only [List.length_cons] at hn ⊢
      split at h
      · simp only [Option.some.injEq, Prod.mk.injEq] at h
        rw [← h.2]; omega
      · split at h
        · split at h
          · simp at h
          · rename_i e rest1
            simp only [List.length_cons] at hn ⊢
            split at h
            · split at h
              · rename_i a b c1 d rest2
                simp only [List.length_cons] at hn ⊢
                split at h
                · rename_i k us1 out hk hs
                  simp only [Option.some.injEq, Prod.mk.injEq] at h
                  have := ih rest2 us1 out (by omega) hs
                  rw [← h.2]; omega
                · simp at h
              · simp at h
            · split at h
              · rename_i x us1 out hx hs
                simp only [Option.some.injEq, Prod.mk.injEq] at h
                have := ih rest1 us1 out (by omega) hs
                rw [← h.2]; omega
              · simp at h
        · split at h
          · simp at h
          · split at h
            · rename_i us1 out hs
              simp only [Option.some.injEq, Prod.mk.injEq] at h
              have := ih tl us1 out (by omega) hs
              rw [← h.2]; omega
            · simp at h

theorem parseString_length_le (cs : List Char) (s : String) (rest : List Char)
    (h : parseString cs = some (s, rest)) : rest.length ≤ cs.length := by
  unfold parseString at h
  split at h
  · rename_i us out hs
    simp only [Option.some.injEq, Prod.mk.injEq] at h
    rw [← h.2]
    exact scanString_length_le cs.length cs us out (Nat.le_refl _) hs
  · simp at h

theorem spanDigits_length_le (cs : List Char) : (spanDigits cs).2.length ≤ cs.length := by
  induction cs with
  | nil => simp [spanDigits]
  | cons c cs ih =>
    simp only [spanDigits]
    split
    · simp only [List.length_cons]; omega
    · exact Nat.le_refl _

theorem scanInt_length_le (cs i rest : List Char) (h : scanInt cs = some (i, rest)) :
    rest.length ≤ cs.length := by
  unfold scanInt at h
  split at h
  · simp at h
  · rename_i c tl
    simp only [List.length_cons]
    split at h
    · simp only [Option.some.injEq, Prod.mk.injEq] at h
      rw [← h.2]; omega
    · split at h
      · simp only [Option.some.injEq, Prod.mk.injEq] at h
        have := spanDigits_length_le tl
        rw [← h.2]; omega
      · simp at h

theorem scanFrac_length_le (cs f rest : List Char) (h : scanFrac cs = some (f, rest)) :
    rest.length ≤ cs.length := by
  unfold scanFrac at h
  split at h
  · rename_i tl
    have := spanDigits_length_le tl
    split at h
    · simp at h
    · rename_i ds out _ hsp
      simp only [Option.some.injEq, Prod.mk.injEq] at h
      rw [hsp] at this
      simp only [List.length_cons]
      rw [← h.2]
      simp only at this
      omega
  · simp only [Option.some.injEq, Prod.mk.injEq] at h
    rw [← h.2]

theorem scanExp_length_le (cs e rest : List Char) (h : scanExp cs = some (e, rest)) :
    rest.length ≤ cs.length := by
  unfold scanExp at h
  split at h
  · simp only [Option.some.injEq, Prod.mk.injEq] at h
    rw [← h.2]
  · rename_i c tl
    split at h
    · split at h
      · simp at h
      · rename_i s cs1
        split at h
        · have := spanDigits_length_le cs1
          split at h
          · simp at h
          · rename_i ds out _ hsp
            simp only [Option.some.injEq, Prod.mk.injEq] at h
            rw [hsp] at this
            simp only [List.length_cons]
            rw [← h.2]
            simp only at this
            omega
        · have := spanDigits_length_le (s :: cs1)
          split at h
          · simp at h
          · rename_i ds out _ hsp
            simp only [Option.some.injEq, Prod.mk.injEq] at h
            rw [hsp] at this
            simp only [List.length_cons] at this ⊢
            rw [← h.2]
            omega
    · simp only [Option.some.injEq, Prod.mk.injEq] at h
      rw [← h.2]

theorem scanNumber_length_le (cs lit rest : List Char) (h : scanNumber cs = some (lit, rest)) :
    rest.length ≤ cs.length := by
  unfold scanNumber at h
  simp only at h
  have hsigned : (match cs with
      | '-' :: r => (['-'], r)
      | r => (([] : List Char), r)).2.length ≤ cs.length := by
    split
    · simp only [List.length_cons]; omega
    · exact Nat.le_refl _
  split at h
  · simp at h
  · rename_i i r1 hi
    have h1 := scanInt_length_le _ _ _ hi
    split at h
    · simp at h
    · rename_i f r2 hf
      have h2 := scanFrac_length_le _ _ _ hf
      split at h
      · simp at h
      · rename_i e r3 he
        have h3 := scanExp_length_le _ _ _ he
        simp only [Option.some.injEq, Prod.mk.injEq] at h
        rw [← h.2]
        omega

theorem parse_fuel (n : Nat) :
    (∀ cs r, parseValue n cs = some r →
      r.2.length ≤ cs.length ∧ ∀ m, 2 * cs.length + 1 ≤ m → parseValue m cs = some r) ∧
    (∀ cs r, parseElems n cs = some r →
      r.2.length ≤ cs.length ∧ ∀ m, 2 * cs.length + 2 ≤ m → parseElems m cs = some r) ∧
    (∀ cs r, parseMembers n cs = some r →
      r.2.length ≤ cs.length ∧ ∀ m, 2 * cs.length + 2 ≤ m → parseMembers m cs = some r) := by
  induction n with
  | zero =>
    refine ⟨?_, ?_, ?_⟩ <;> intro cs r h
    · rw [parseValue.eq_def] at h; simp at h
    · rw [parseElems.eq_def] at h; simp at h
    · rw [parseMembers.eq_def] at h; simp at h
  | succ n ih =>
    obtain ⟨ihV, ihE, ihM⟩ := ih
    refine ⟨?_, ?_, ?_⟩
    · intro cs r h
      rw [parseValue.eq_def] at h
      simp only at h
      split at h
      · cases h
        refine ⟨by simp only [List.length_cons]; omega, ?_⟩
        intro m hm
        obtain ⟨k, rfl⟩ : ∃ k, m = k + 1 := ⟨m - 1, by omega⟩
        rw [parseValue.eq_def]
        simp only
      · cases h
        refine ⟨by simp only [List.length_cons]; omega, ?_⟩
        intro m hm
        obtain ⟨k, rfl⟩ : ∃ k, m = k + 1 := ⟨m - 1, by omega⟩
        rw [parseValue.eq_def]
        simp only
      · cases h
        refine ⟨by simp only [List.length_cons]; omega, ?_⟩
        intro m hm
        obtain ⟨k, rfl⟩ : ∃ k, m = k + 1 := ⟨m - 1, by omega⟩
        rw [parseValue.eq_def]
        simp only
      · rename_i rest
        split at h
        · rename_i s out hs
          cases h
          have hl := parseString_length_le _ _ _ hs
          refine ⟨by simp only [List.length_cons]; omega, ?_⟩
          intro m hm
          obtain ⟨k, rfl⟩ : ∃ k, m = k + 1 := ⟨m - 1, by omega⟩
          rw [parseValue.eq_def]
          simp only [hs]
        · simp at h
      · rename_i rest
        have hsk := skipSpace_length_le rest
        split at h
        · rename_i out hsp
          cases h
          rw [hsp] at hsk
          simp only [List.length_cons] at hsk
          refine ⟨by simp only [List.length_cons]; omega, ?_⟩
          intro m hm
          obtain ⟨k, rfl⟩ : ∃ k, m = k + 1 := ⟨m - 1, by omega⟩
          rw [parseValue.eq_def]
          simp only [hsp]
        · rename_i hneg
          split at h
          · rename_i xs out hE
            cases h
            obtain ⟨hl, hfuel⟩ := ihE _ _ hE
            simp only at hl
            refine ⟨by simp only [List.length_cons]; omega, ?_⟩
            intro m hm
            obtain ⟨k, rfl⟩ : ∃ k, m = k + 1 := ⟨m - 1, by omega⟩
            have hE2 := hfuel k (by simp only [List.length_cons] at hm; omega)
            rw [parseValue.eq_def]
            simp only [hE2]
          · simp at h
      · rename_i rest
        have hsk := skipSpace_length_le rest
        split at h
        · rename_i out hsp
          cases h
          rw [hsp] at hsk
          simp only [List.length_cons] at hsk
          refine ⟨by simp only [List.length_cons]; omega, ?_⟩
          intro m hm
          obtain ⟨k, rfl⟩ : ∃ k, m = k + 1 := ⟨m - 1, by omega⟩
          rw [parseValue.eq_def]
          simp only [hsp]
        · rename_i hneg
          split at h
          · rename_i ms out hM
            cases h
            obtain ⟨hl, hfuel⟩ := ihM _ _ hM
            simp only at hl
            refine ⟨by simp only [List.length_cons]; omega, ?_⟩
            intro m hm
            obtain ⟨k, rfl⟩ : ∃ k, m = k + 1 := ⟨m - 1, by omega⟩
            have hM2 := hfuel k (by simp only [List.length_cons] at hm; omega)
            rw [parseValue.eq_def]
            simp only [hM2]
          · simp at h
      · rename_i n1 n2 n3 n4 n5 n6
        split at h
        · rename_i lit out hnum
          cases h
          have hl := scanNumber_length_le _ _ _ hnum
          refine ⟨hl, ?_⟩
          intro m hm
          obtain ⟨k, rfl⟩ : ∃ k, m = k + 1 := ⟨m - 1, by omega⟩
          rw [parseValue.eq_def]
          simp only
          simp only [hnum]
        · simp at h
    · intro cs r h
      rw [parseElems.eq_def] at h
      simp only at h
      split at h
      · simp at h
      · rename_i v rest hv
        obtain ⟨hl, hfuel⟩ := ihV _ _ hv
        simp only at hl
        have hsk := skipSpace_length_le rest
        split at h
        · rename_i more hsp
          have hsk2 := skipSpace_length_le more
          rw [hsp] at hsk
          simp only [List.length_cons] at hsk
          split at h
          · rename_i vs out hE
            cases h
            obtain ⟨hl2, hfuel2⟩ := ihE _ _ hE
            simp only at hl2
            refine ⟨by simp only; omega, ?_⟩
            intro m hm
            obtain ⟨k, rfl⟩ : ∃ k, m = k + 1 := ⟨m - 1, by omega⟩
            have hv2 := hfuel k (by omega)
            have hE2 := hfuel2 k (by omega)
            rw [parseElems.eq_def]
            simp only [hv2, hsp, hE2]
          · simp at h
        · rename_i out hsp
          cases h
          rw [hsp] at hsk
          simp only [List.length_cons] at hsk
          refine ⟨by simp only; omega, ?_⟩
          intro m hm
          obtain ⟨k, rfl⟩ : ∃ k, m = k + 1 := ⟨m - 1, by omega⟩
          have hv2 := hfuel k (by omega)
          rw [parseElems.eq_def]
          simp only [hv2, hsp]
        · simp at h
    · intro cs r h
      rw [parseMembers.eq_def] at h
      simp only at h
      split at h
      · rename_i rest
        split at h
        · simp at h
        · rename_i key r1 hs
          have hl1 := parseString_length_le _ _ _ hs
          have hsk1 := skipSpace_length_le r1
          split at h
          · rename_i r2 hsp1
            rw [hsp1] at hsk1
            simp only [List.length_cons] at hsk1
            have hsk2 := skipSpace_length_le r2
            split at h
            · simp at h
            · rename_i v r3 hv
              obtain ⟨hl3, hfuel⟩ := ihV _ _ hv
              simp only at hl3
              have hsk3 := skipSpace_length_le r3
              split at h
              · rename_i more hsp3
                rw [hsp3] at hsk3
                simp only [List.length_cons] at hsk3
                have hsk4 := skipSpace_length_le more
                split at h
                · rename_i ms out hM
                  cases h
                  obtain ⟨hl5, hfuel5⟩ := ihM _ _ hM
                  simp only at hl5
                  refine ⟨by simp only [List.length_cons]; omega, ?_⟩
                  intro m hm
                  simp only [List.length_cons] at hm
                  obtain ⟨k, rfl⟩ : ∃ k, m = k + 1 := ⟨m - 1, by omega⟩
                  have hv2 := hfuel k (by omega)
                  have hM2 := hfuel5 k (by omega)
                  rw [parseMembers.eq_def]
                  simp only [hs, hsp1, hv2, hsp3, hM2]
                · simp at h
              · rename_i out hsp3
                cases h
                rw [hsp3] at hsk3
                simp only [List.length_cons] at hsk3
                refine ⟨by simp only [List.length_cons]; omega, ?_⟩
                intro m hm
                simp only [List.length_cons] at hm
                obtain ⟨k, rfl⟩ : ∃ k, m = k + 1 := ⟨m - 1, by omega⟩
                have hv2 := hfuel k (by omega)
                rw [parseMembers.eq_def]
                simp only [hs, hsp1, hv2, hsp3]
              · simp at h
          · simp at h
      · simp at h

/-- The reader does not fail for want of fuel: a text that is read as one
complete value under some amount of fuel is read as that value by
`parseJSON`. -/
theorem parseJSON_of_parseValue (body : String) (n : Nat) (v : JSON) (rest : List Char)
    (h : parseValue n (skipSpace body.toList) = some (v, rest))
    (hrest : skipSpace rest = []) : parseJSON body = some v := by
  have hsk := skipSpace_length_le body.toList
  have hlen : body.toList.length = body.length := rfl
  have h2 := ((parse_fuel n).1 _ _ h).2 (2 * body.length + 2) (by omega)
  unfold parseJSON
  simp only [h2, hrest, if_true]

/-- Conversely, what `parseJSON` returns is a complete value of the text
under every larger amount of fuel, so its answer does not depend on the
fuel it chose. -/
theorem parseJSON_fuel_stable (body : String) (m : Nat) (hm : 2 * body.length + 2 ≤ m) :
    (match parseValue m (skipSpace body.toList) with
      | some (v, rest) => if skipSpace rest = [] then some v else none
      | none => none) = parseJSON body := by
  have hsk := skipSpace_length_le body.toList
  have hlen : body.toList.length = body.length := rfl
  unfold parseJSON
  cases h1 : parseValue (2 * body.length + 2) (skipSpace body.toList) with
  | some r =>
    have h2 := ((parse_fuel _).1 _ _ h1).2 m (by omega)
    rw [h2]
  | none =>
    cases h3 : parseValue m (skipSpace body.toList) with
    | none => rfl
    | some r =>
      have h4 := ((parse_fuel _).1 _ _ h3).2 (2 * body.length + 2) (by omega)
      rw [h4] at h1
      cases h1

/-! ## Response classification (`httpDo`) -/

/-- C1: a response that arrives without transport error and has status 401,
403 or 404 is handed back together with `ErrNotAuthorized`, `ErrForbidden`
or `ErrDataNotFound` respectively, whatever its body holds and whether or
not the body can be read, for every target; the target is left as it was. -/
theorem httpDo_auth_status {α : Type} (dec : JSON → α → α × Option GoError)
    (res : Response) (data : Option α)
    (hs : res.StatusCode = 401 ∨ res.StatusCode = 403 ∨ res.StatusCode = 404) :
    (httpDo dec (some res, none) data).res = some res ∧
    (httpDo dec (some res, none) data).err =
      some (if res.StatusCode = 401 then GoError.ErrNotAuthorized
            else if res.StatusCode = 403 then GoError.ErrForbidden
            else GoError.ErrDataNotFound) ∧
    (httpDo dec (some res, none) data).data = data := by
  rcases hs with h | h | h <;>
    simp [httpDo, h, StatusUnauthorized, StatusForbidden, StatusNotFound]

/-- Witness of C1: a 404 whose body is an error object that cannot be read
to its end, with a non-nil target. -/
theorem httpDo_auth_status_witness :
    ((404 : Int) = 401 ∨ (404 : Int) = 403 ∨ (404 : Int) = 404) ∧
    (httpDo decodeErrorStruct
        (some (Response.mk 404 (Body.mk "\x7b\"error\":\"X\"\x7d" (some (GoError.other 7)))), none)
        (some (ErrorStruct.mk "keep"))).err = some GoError.ErrDataNotFound ∧
    (httpDo decodeErrorStruct
        (some (Response.mk 404 (Body.mk "\x7b\"error\":\"X\"\x7d" (some (GoError.other 7)))), none)
        (some (ErrorStruct.mk "keep"))).data = some (ErrorStruct.mk "keep") :=
  ⟨by decide,
   (httpDo_auth_status decodeErrorStruct
      (Response.mk 404 (Body.mk "\x7b\"error\":\"X\"\x7d" (some (GoError.other 7))))
      (some (ErrorStruct.mk "keep")) (by decide)).2.1,
   (httpDo_auth_status decodeErrorStruct
      (Response.mk 404 (Body.mk "\x7b\"error\":\"X\"\x7d" (some (GoError.other 7))))
      (some (ErrorStruct.mk "keep")) (by decide)).2.2⟩

/-- How `httpDo` goes on once the status is none of 401, 403 and 404 and the
body has been read without error. -/
theorem httpDo_after_read {α : Type} (dec : JSON → α → α × Option GoError)
    (res : Response) (data : Option α)
    (h401 : res.StatusCode ≠ 401) (h403 : res.StatusCode ≠ 403) (h404 : res.StatusCode ≠ 404)
    (hread : res.Body.readErr = none) :
    httpDo dec (some res, none) data =
      if 200 ≤ res.StatusCode ∧ res.StatusCode < 300 then
        match data with
        | some v => DoResult.mk (some res) none (some (Unmarshal dec res.Body.content v).1)
        | none => DoResult.mk (some res) none none
      else
        match Unmarshal decodeErrorStruct res.Body.content (ErrorStruct.mk "") with
        | (aerr, none) => DoResult.mk (some res) (some (GoError.errorsNew aerr.Error)) data
        | (_, some _) => DoResult.mk (some res) (some GoError.ErrHTTPNotOk) data := by
  obtain ⟨code, content, readErr⟩ := res
  simp only at hread h401 h403 h404
  subst hread
  simp [httpDo, ioutilReadAll, StatusUnauthorized, StatusForbidden, StatusNotFound,
    h401, h403, h404]

/-- C2, as stated, fails: a 200 whose readable body is valid JSON that does
not fit the Go type of the target (the array `[1]`, or an object whose
`error` member is a number, for a target of type `struct { Error string }`)
makes `json.Unmarshal` report a type error, which `httpDo` drops: the call
returns nil and the non-nil target does not hold the decoded body, it is
exactly what it was before the call. -/
theorem httpDo_success_type_mismatch :
    (parseJSON "[1]").isSome = true ∧
    (Unmarshal decodeErrorStruct "[1]" (ErrorStruct.mk "keep")).2
      = some GoError.unmarshalTypeError ∧
    (httpDo decodeErrorStruct (some (responseWith 200 "[1]"), none)
        (some (ErrorStruct.mk "keep"))).err = none ∧
    (httpDo decodeErrorStruct (some (responseWith 200 "[1]"), none)
        (some (ErrorStruct.mk "keep"))).data = some (ErrorStruct.mk "keep") ∧
    (parseJSON "\x7b\"error\":5\x7d").isSome = true ∧
    (httpDo decodeErrorStruct (some (responseWith 200 "\x7b\"error\":5\x7d"), none)
        (some (ErrorStruct.mk "keep"))).err = none ∧
    (httpDo decodeErrorStruct (some (responseWith 200 "\x7b\"error\":5\x7d"), none)
        (some (ErrorStruct.mk "keep"))).data = some (ErrorStruct.mk "keep") := by
  decide

/-- C2, amended: for a status in [200, 300) and a body read without error,
`httpDo` returns the response and a nil error whatever the body and the
target; a nil target stays nil (nothing is decoded); a body that is not JSON
leaves a non-nil target exactly as it was; and for a body that is JSON a
non-nil target is what the decoder of its Go type leaves in it, the error of
the decoder being dropped.  So the target holds the decoded body as far as
the body fits its type: an empty interface target holds the whole document,
a `struct { Error string }` target holds the string of the `error` member,
and where the document does not fit (a value that is not an object, an
`error` member that is not a string) the target is left as it was. -/
theorem httpDo_success {α : Type} (dec : JSON → α → α × Option GoError)
    (res : Response) (data : Option α)
    (h2xx : 200 ≤ res.StatusCode ∧ res.StatusCode < 300)
    (hread : res.Body.readErr = none) :
    (httpDo dec (some res, none) data).res = some res ∧
    (httpDo dec (some res, none) data).err = none ∧
    (data = none → (httpDo dec (some res, none) data).data = none) ∧
    (∀ v, data = some v → parseJSON res.Body.content = none →
      (httpDo dec (some res, none) data).data = some v) ∧
    (∀ v j, data = some v → parseJSON res.Body.content = some j →
      (httpDo dec (some res, none) data).data = some (dec j v).1) ∧
    (∀ (old : Option JSON) j, parseJSON res.Body.content = some j →
      (httpDo decodeInterface (some res, none) (some old)).err = none ∧
      (httpDo decodeInterface (some res, none) (some old)).data = some (some j)) ∧
    (∀ (v : ErrorStruct) X,
      parseJSON res.Body.content = some (JSON.object [("error", JSON.string X)]) →
      (httpDo decodeErrorStruct (some res, none) (some v)).data = some (ErrorStruct.mk X)) ∧
    (∀ (v : ErrorStruct) j, parseJSON res.Body.content = some j →
      (∀ ms, j ≠ JSON.object ms) →
      (httpDo decodeErrorStruct (some res, none) (some v)).err = none ∧
      (httpDo decodeErrorStruct (some res, none) (some v)).data = some v) ∧
    (∀ (v : ErrorStruct) x,
      parseJSON res.Body.content = some (JSON.object [("error", x)]) →
      (∀ s, x ≠ JSON.string s) →
      (httpDo decodeErrorStruct (some res, none) (some v)).err = none ∧
      (httpDo decodeErrorStruct (some res, none) (some v)).data = some v) := by
  have h401 : res.StatusCode ≠ 401 := by omega
  have h403 : res.StatusCode ≠ 403 := by omega
  have h404 : res.StatusCode ≠ 404 := by omega
  refine ⟨?_, ?_, ?_, ?_, ?_, ?_, ?_, ?_, ?_⟩
  · rw [httpDo_after_read dec res data h401 h403 h404 hread, if_pos h2xx]
    cases data <;> rfl
  · rw [httpDo_after_read dec res data h401 h403 h404 hread, if_pos h2xx]
    cases data <;> rfl
  · intro hd
    subst hd
    rw [httpDo_after_read dec res none h401 h403 h404 hread, if_pos h2xx]
  · intro v hv hj
    subst hv
    rw [httpDo_after_read dec res (some v) h401 h403 h404 hread, if_pos h2xx]
    simp [Unmarshal, hj]
  · intro v j hv hj
    subst hv
    rw [httpDo_after_read dec res (some v) h401 h403 h404 hread, if_pos h2xx]
    simp [Unmarshal, hj]
  · intro old j hj
    rw [httpDo_after_read decodeInterface res (some old) h401 h403 h404 hread, if_pos h2xx]
    simp [Unmarshal, hj, decodeInterface]
  · intro v X hj
    rw [httpDo_after_read decodeErrorStruct res (some v) h401 h403 h404 hread, if_pos h2xx]
    simp [Unmarshal, hj, decodeErrorStruct, storeErrorMembers, isErrorKey, storeString]
  · intro v j hj hno
    rw [httpDo_after_read decodeErrorStruct res (some v) h401 h403 h404 hread, if_pos h2xx]
    cases j with
    | object ms => exact absurd rfl (hno ms)
    | null => simp [Unmarshal, hj, decodeErrorStruct]
    | bool b => simp [Unmarshal, hj, decodeErrorStruct]
    | number lit => simp [Unmarshal, hj, decodeErrorStruct]
    | string str => simp [Unmarshal, hj, decodeErrorStruct]
    | array xs => simp [Unmarshal, hj, decodeErrorStruct]
  · intro v x hj hno
    rw [httpDo_after_read decodeErrorStruct res (some v) h401 h403 h404 hread, if_pos h2xx]
    cases x with
    | string str => exact absurd rfl (hno str)
    | null =>
      simp [Unmarshal, hj, decodeErrorStruct, storeErrorMembers, isErrorKey, storeString]
    | bool b =>
      simp [Unmarshal, hj, decodeErrorStruct, storeErrorMembers, isErrorKey, storeString]
    | number lit =>
      simp [Unmarshal, hj, decodeErrorStruct, storeErrorMembers, isErrorKey, storeString]
    | array xs =>
      simp [Unmarshal, hj, decodeErrorStruct, storeErrorMembers, isErrorKey, storeString]
    | object ms =>
      simp [Unmarshal, hj, decodeErrorStruct, storeErrorMembers, isErrorKey, storeString]

/-- Witness of amended C2: a 200 whose body is a room object, decoded into
an empty interface target, leaves the whole document in the target, with
`name` equal to `R1`; a 204 whose body is the string `"R1"`, which is not an
object, leaves a `struct { Error string }` target unchanged; a 200 whose
body is the object with `error` equal to `R1` stores `R1` in it. -/
theorem httpDo_success_witness :
    ((200 : Int) ≤ (responseWith 200 "\x7b\"id\":\"r-01\",\"name\":\"R1\"\x7d").StatusCode ∧
      (responseWith 200 "\x7b\"id\":\"r-01\",\"name\":\"R1\"\x7d").StatusCode < 300) ∧
    (responseWith 200 "\x7b\"id\":\"r-01\",\"name\":\"R1\"\x7d").Body.readErr = none ∧
    (httpDo decodeInterface
        (some (responseWith 200 "\x7b\"id\":\"r-01\",\"name\":\"R1\"\x7d"), none) (some none)).err
      = none ∧
    (httpDo decodeInterface
        (some (responseWith 200 "\x7b\"id\":\"r-01\",\"name\":\"R1\"\x7d"), none) (some none)).data
      = some (some (JSON.object [("id", JSON.string "r-01"), ("name", JSON.string "R1")])) ∧
    (httpDo decodeErrorStruct (some (responseWith 204 "\"R1\""), none)
        (some (ErrorStruct.mk "keep"))).data = some (ErrorStruct.mk "keep") ∧
    (httpDo decodeErrorStruct (some (responseWith 200 (errorBody "R1")), none)
        (some (ErrorStruct.mk "keep"))).data = some (ErrorStruct.mk "R1") :=
  ⟨by decide, rfl,
   (httpDo_success decodeInterface (responseWith 200 "\x7b\"id\":\"r-01\",\"name\":\"R1\"\x7d")
      (some none) (by decide) rfl).2.1,
   ((httpDo_success decodeInterface (responseWith 200 "\x7b\"id\":\"r-01\",\"name\":\"R1\"\x7d")
      (some none) (by decide) rfl).2.2.2.2.2.1 none
      (JSON.object [("id", JSON.string "r-01"), ("name", JSON.string "R1")]) rfl).2,
   ((httpDo_success decodeErrorStruct (responseWith 204 "\"R1\"")
      (some (ErrorStruct.mk "keep")) (by decide) rfl).2.2.2.2.2.2.2.1 (ErrorStruct.mk "keep")
      (JSON.string "R1") rfl (fun ms h => by cases h)).2,
   (httpDo_success decodeErrorStruct (responseWith 200 (errorBody "R1"))
      (some (ErrorStruct.mk "keep")) (by decide) rfl).2.2.2.2.2.2.1 (ErrorStruct.mk "keep")
      "R1" (parseJSON_errorBody "R1")⟩

/-- C3: for a status outside [200, 300) other than 401, 403 and 404 and a
body read without error: a body that is the JSON object with the single
member `error` of string value `X` makes `httpDo` fail with the error made
by `errors.New(X)`, whose message is exactly `X`; a body that is not JSON
makes it fail with exactly `ErrHTTPNotOk`.  In every such case the error is
non-nil, the response is handed back and the target is left as it was.  The
first part is stated for the text `errorBody X` and for any other text of
that object (white space, other escapes). -/
theorem httpDo_error_status {α : Type} (dec : JSON → α → α × Option GoError)
    (res : Response) (data : Option α)
    (h2xx : ¬ (200 ≤ res.StatusCode ∧ res.StatusCode < 300))
    (h401 : res.StatusCode ≠ 401) (h403 : res.StatusCode ≠ 403) (h404 : res.StatusCode ≠ 404)
    (hread : res.Body.readErr = none) :
    (∀ X : String, res.Body.content = errorBody X →
      (httpDo dec (some res, none) data).err = some (GoError.errorsNew X) ∧
      (GoError.errorsNew X).message = some X) ∧
    (∀ X : String,
      parseJSON res.Body.content = some (JSON.object [("error", JSON.string X)]) →
      (httpDo dec (some res, none) data).err = some (GoError.errorsNew X)) ∧
    (parseJSON res.Body.content = none →
      (httpDo dec (some res, none) data).err = some GoError.ErrHTTPNotOk) ∧
    (httpDo dec (some res, none) data).err ≠ none ∧
    (httpDo dec (some res, none) data).res = some res ∧
    (httpDo dec (some res, none) data).data = data := by
  rw [httpDo_after_read dec res data h401 h403 h404 hread, if_neg h2xx]
  refine ⟨?_, ?_, ?_, ?_, ?_, ?_⟩
  · intro X hX
    simp [Unmarshal, hX, parseJSON_errorBody, decodeErrorStruct, storeErrorMembers,
      isErrorKey, storeString, GoError.message]
  · intro X hj
    simp [Unmarshal, hj, decodeErrorStruct, storeErrorMembers, isErrorKey, storeString]
  · intro hj
    simp [Unmarshal, hj]
  all_goals
    rcases hU : Unmarshal decodeErrorStruct res.Body.content (ErrorStruct.mk "") with ⟨a, _ | e⟩ <;>
      simp

/-- Witness of C3: a 500 whose body is the error object for a message that
needs escaping, and a 502 whose body is not JSON. -/
theorem httpDo_error_status_witness :
    (httpDo decodeErrorStruct
        (some (responseWith 500 (errorBody "disk \"sda\" failed\n")), none)
        (some (ErrorStruct.mk "keep"))).err
      = some (GoError.errorsNew "disk \"sda\" failed\n") ∧
    (httpDo decodeErrorStruct (some (responseWith 502 "<html>Bad Gateway</html>"), none)
        (some (ErrorStruct.mk "keep"))).err = some GoError.ErrHTTPNotOk ∧
    (httpDo decodeErrorStruct (some (responseWith 502 "<html>Bad Gateway</html>"), none)
        (some (ErrorStruct.mk "keep"))).data = some (ErrorStruct.mk "keep") :=
  ⟨((httpDo_error_status decodeErrorStruct
        (responseWith 500 (errorBody "disk \"sda\" failed\n")) (some (ErrorStruct.mk "keep"))
        (by decide) (by decide) (by decide) (by decide) rfl).1
        "disk \"sda\" failed\n" rfl).1,
   (httpDo_error_status decodeErrorStruct (responseWith 502 "<html>Bad Gateway</html>")
        (some (ErrorStruct.mk "keep"))
        (by decide) (by decide) (by decide) (by decide) rfl).2.2.1 rfl,
   (httpDo_error_status decodeErrorStruct (responseWith 502 "<html>Bad Gateway</html>")
        (some (ErrorStruct.mk "keep"))
        (by decide) (by decide) (by decide) (by decide) rfl).2.2.2.2.2⟩

/-- C4: evaluation of `httpDo` at a 500 response whose body is JSON without
an `error` member (`{}`, `null`, an object with other members): the decode
into the error struct succeeds, so the error returned is the one made by
`errors.New("")`, with an empty message, and not `ErrHTTPNotOk`. -/
theorem httpDo_json_without_error_member :
    (httpDo decodeErrorStruct (some (responseWith 500 "\x7b\x7d"), none)
        (none : Option ErrorStruct)).err = some (GoError.errorsNew "") ∧
    (httpDo decodeErrorStruct (some (responseWith 500 "null"), none)
        (none : Option ErrorStruct)).err = some (GoError.errorsNew "") ∧
    (httpDo decodeErrorStruct (some (responseWith 500 "\x7b\"status\":\"fail\"\x7d"), none)
        (none : Option ErrorStruct)).err = some (GoError.errorsNew "") ∧
    (httpDo decodeErrorStruct (some (responseWith 500 "\x7b\x7d"), none)
        (none : Option ErrorStruct)).err ≠ some GoError.ErrHTTPNotOk := by
  decide

/-- C9, as stated, fails: a 401 response whose body cannot be read yields
`ErrNotAuthorized`, not the read error (and likewise for 403 and 404). -/
theorem httpDo_status_before_read :
    (responseUnreadable 401).Body.readErr = some (GoError.other 7) ∧
    (httpDo decodeErrorStruct (some (responseUnreadable 401), none)
        (none : Option ErrorStruct)).err = some GoError.ErrNotAuthorized ∧
    (httpDo decodeErrorStruct (some (responseUnreadable 403), none)
        (none : Option ErrorStruct)).err = some GoError.ErrForbidden ∧
    (httpDo decodeErrorStruct (some (responseUnreadable 404), none)
        (none : Option ErrorStruct)).err = some GoError.ErrDataNotFound ∧
    (httpDo decodeErrorStruct (some (responseUnreadable 401), none)
        (none : Option ErrorStruct)).err ≠ (responseUnreadable 401).Body.readErr := by
  decide

/-- C9, amended: `httpDo` reports errors in the order transport failure
(transport error or no response object, handed back verbatim) >
`ErrNotAuthorized` (401) > `ErrForbidden` (403) > `ErrDataNotFound` (404) >
body read error > application error > `ErrHTTPNotOk`.  Each line below gives
the error of a class under the sole assumption that no class before it
applies, so it wins over every class after it. -/
theorem httpDo_priority {α : Type} (dec : JSON → α → α × Option GoError)
    (resp : Option Response) (terr : Option GoError) (data : Option α) :
    (resp = none ∨ terr ≠ none →
      httpDo dec (resp, terr) data = DoResult.mk resp terr data) ∧
    (∀ res, resp = some res → terr = none →
      (res.StatusCode = 401 →
        (httpDo dec (resp, terr) data).err = some GoError.ErrNotAuthorized) ∧
      (res.StatusCode = 403 →
        (httpDo dec (resp, terr) data).err = some GoError.ErrForbidden) ∧
      (res.StatusCode = 404 →
        (httpDo dec (resp, terr) data).err = some GoError.ErrDataNotFound) ∧
      (res.StatusCode ≠ 401 → res.StatusCode ≠ 403 → res.StatusCode ≠ 404 →
        (∀ e, res.Body.readErr = some e → (httpDo dec (resp, terr) data).err = some e) ∧
        (res.Body.readErr = none → ¬ (200 ≤ res.StatusCode ∧ res.StatusCode < 300) →
          (∀ aerr, Unmarshal decodeErrorStruct res.Body.content (ErrorStruct.mk "") = (aerr, none) →
            (httpDo dec (resp, terr) data).err = some (GoError.errorsNew aerr.Error)) ∧
          (∀ aerr e,
            Unmarshal decodeErrorStruct res.Body.content (ErrorStruct.mk "") = (aerr, some e) →
            (httpDo dec (resp, terr) data).err = some GoError.ErrHTTPNotOk)))) := by
  constructor
  · intro h
    cases resp with
    | none => simp [httpDo]
    | some res =>
      cases terr with
      | none => simp at h
      | some e => simp [httpDo]
  · intro res hres hterr
    subst hres
    subst hterr
    refine ⟨?_, ?_, ?_, ?_⟩
    · intro h
      simp [httpDo, h, StatusUnauthorized, StatusForbidden, StatusNotFound]
    · intro h
      simp [httpDo, h, StatusUnauthorized, StatusForbidden, StatusNotFound]
    · intro h
      simp [httpDo, h, StatusUnauthorized, StatusForbidden, StatusNotFound]
    · intro h401 h403 h404
      constructor
      · intro e he
        obtain ⟨code, content, readErr⟩ := res
        simp only at he h401 h403 h404
        subst he
        simp [httpDo, ioutilReadAll, StatusUnauthorized, StatusForbidden, StatusNotFound,
          h401, h403, h404]
      · intro hread h2xx
        rw [httpDo_after_read dec res data h401 h403 h404 hread, if_neg h2xx]
        constructor
        · intro aerr hU
          simp [hU]
        · intro aerr e hU
          simp [hU]

/-- Witness of amended C9: a transport failure that comes with a 401
response is handed back verbatim, and a 401 whose body cannot be read
yields `ErrNotAuthorized`. -/
theorem httpDo_priority_witness :
    httpDo decodeErrorStruct (some (responseUnreadable 401), some (GoError.other 3))
        (some (ErrorStruct.mk "keep"))
      = DoResult.mk (some (responseUnreadable 401)) (some (GoError.other 3))
          (some (ErrorStruct.mk "keep")) ∧
    (httpDo decodeErrorStruct (some (responseUnreadable 401), none)
        (some (ErrorStruct.mk "keep"))).err = some GoError.ErrNotAuthorized ∧
    (httpDo decodeErrorStruct (some (responseUnreadable 500), none)
        (some (ErrorStruct.mk "keep"))).err = some (GoError.other 7) :=
  ⟨(httpDo_priority decodeErrorStruct (some (responseUnreadable 401)) (some (GoError.other 3))
      (some (ErrorStruct.mk "keep"))).1 (Or.inr (by decide)),
   ((httpDo_priority decodeErrorStruct (some (responseUnreadable 401)) none
      (some (ErrorStruct.mk "keep"))).2 (responseUnreadable 401) rfl rfl).1 (by decide),
   (((httpDo_priority decodeErrorStruct (some (responseUnreadable 500)) none
      (some (ErrorStruct.mk "keep"))).2 (responseUnreadable 500) rfl rfl).2.2.2
      (by decide) (by decide) (by decide)).1 (GoError.other 7) rfl⟩

/-! ## The redirect policy (`CheckRedirect`) -/

/-- C6, as stated, fails: a redirect from `conch.joyent.us` to another host
whose request carries an `Authorization` header on entry still carries it
after the policy has run, and the policy reports no error. -/
theorem CheckRedirect_keeps_auth_on_other_host :
    (requestTo "other.example" bearerHeader).URL.Host
      ≠ (requestTo "conch.joyent.us" bearerHeader).URL.Host ∧
    (CheckRedirect (requestTo "other.example" bearerHeader)
        [requestTo "conch.joyent.us" bearerHeader]).1.Header "Authorization"
      = some ["Bearer abc123"] ∧
    (CheckRedirect (requestTo "other.example" bearerHeader)
        [requestTo "conch.joyent.us" bearerHeader]).2 = none := by
  decide

/-- C6, amended: when the redirect goes to a host different from the host
of the original request, the policy leaves the redirected request exactly
as it was on entry, for every non-empty chain of prior requests: it adds no
`Authorization` header and removes none, so the request carries one
afterwards exactly when it carried one on entry. -/
theorem CheckRedirect_other_host (req first : Request) (rest : List Request)
    (hhost : req.URL.Host ≠ first.URL.Host) :
    (CheckRedirect req (first :: rest)).1 = req ∧
    (CheckRedirect req (first :: rest)).1.Header "Authorization"
      = req.Header "Authorization" ∧
    (req.Header "Authorization" = none →
      (CheckRedirect req (first :: rest)).1.Header "Authorization" = none) := by
  have h : (CheckRedirect req (first :: rest)).1 = req := by
    unfold CheckRedirect
    split <;> simp [hhost]
  rw [h]
  exact ⟨rfl, rfl, fun h0 => h0⟩

/-- Witness of amended C6: a redirect to another host whose request has no
`Authorization` header on entry has none afterwards. -/
theorem CheckRedirect_other_host_witness :
    (requestTo "other.example" Header.empty).URL.Host
      ≠ (requestTo "conch.joyent.us" bearerHeader).URL.Host ∧
    (CheckRedirect (requestTo "other.example" Header.empty)
        [requestTo "conch.joyent.us" bearerHeader]).1.Header "Authorization" = none :=
  ⟨by decide,
   (CheckRedirect_other_host (requestTo "other.example" Header.empty)
      (requestTo "conch.joyent.us" bearerHeader) [] (by decide)).2.2 rfl⟩

/-- C7: when the redirect goes to the host of the original request, the
original request has an `Authorization` header and the chain holds between
1 and 30 requests, the policy returns no error, the redirected request
carries the `Authorization` header of the original request, and every other
header and the URL of the redirected request are unchanged. -/
theorem CheckRedirect_same_host (req first : Request) (rest : List Request)
    (auth : List String)
    (hhost : req.URL.Host = first.URL.Host)
    (hauth : first.Header "Authorization" = some auth)
    (hlen : (first :: rest).length ≤ 30) :
    (CheckRedirect req (first :: rest)).2 = none ∧
    (CheckRedirect req (first :: rest)).1.Header "Authorization"
      = first.Header "Authorization" ∧
    (∀ k, k ≠ "Authorization" →
      (CheckRedirect req (first :: rest)).1.Header k = req.Header k) ∧
    (CheckRedirect req (first :: rest)).1.URL = req.URL := by
  have hnot : ¬ ((first :: rest).length > 30) := by omega
  have hval : CheckRedirect req (first :: rest)
      = (Request.mk req.URL (req.Header.assign "Authorization" auth), none) := by
    unfold CheckRedirect
    rw [if_neg hnot]
    simp only [hhost, if_true, hauth]
  rw [hval, hauth]
  refine ⟨rfl, ?_, ?_, rfl⟩
  · simp [Header.assign]
  · intro k hk
    simp [Header.assign, hk]

/-- Witness of C7: a redirect back to `conch.joyent.us` whose request
arrives without headers gets the bearer header of the original request. -/
theorem CheckRedirect_same_host_witness :
    (requestTo "conch.joyent.us" Header.empty).URL.Host
      = (requestTo "conch.joyent.us" bearerHeader).URL.Host ∧
    bearerHeader "Authorization" = some ["Bearer abc123"] ∧
    (CheckRedirect (requestTo "conch.joyent.us" Header.empty)
        [requestTo "conch.joyent.us" bearerHeader]).2 = none ∧
    (CheckRedirect (requestTo "conch.joyent.us" Header.empty)
        [requestTo "conch.joyent.us" bearerHeader]).1.Header "Authorization"
      = some ["Bearer abc123"] :=
  ⟨rfl, by decide,
   (CheckRedirect_same_host (requestTo "conch.joyent.us" Header.empty)
      (requestTo "conch.joyent.us" bearerHeader) [] ["Bearer abc123"] rfl (by decide)
      (by decide)).1,
   (CheckRedirect_same_host (requestTo "conch.joyent.us" Header.empty)
      (requestTo "conch.joyent.us" bearerHeader) [] ["Bearer abc123"] rfl (by decide)
      (by decide)).2.1.trans (by decide)⟩

/-- C8: called with the `n` requests already made, the policy returns no
error for every `n` from 1 to 30 and the redirect count error
`"<n> > 30 consecutive requests(redirects)"` for every `n` of 31 or more; so
a chain of exactly 30 hops is never rejected for its length and a chain of
31 or more always is. -/
theorem CheckRedirect_count (req : Request) (via : List Request) :
    (1 ≤ via.length → via.length ≤ 30 → (CheckRedirect req via).2 = none) ∧
    (31 ≤ via.length →
      (CheckRedirect req via).2 = some (GoError.errorf
        (toString via.length ++ " > 30 consecutive requests(redirects)"))) := by
  constructor
  · intro _ h30
    have hnot : ¬ (via.length > 30) := by omega
    unfold CheckRedirect
    rw [if_neg hnot]
    cases via with
    | nil => rfl
    | cons first rest =>
      simp only
      split
      · split <;> rfl
      · rfl
  · intro h31
    have h : via.length > 30 := by omega
    unfold CheckRedirect
    rw [if_pos h]

/-- Witness of C8: the thirtieth redirect passes, the thirty-first is
refused with the redirect count error. -/
theorem CheckRedirect_count_witness :
    (CheckRedirect (requestTo "conch.joyent.us" Header.empty)
        (List.replicate 30 (requestTo "conch.joyent.us" Header.empty))).2 = none ∧
    (CheckRedirect (requestTo "conch.joyent.us" Header.empty)
        (List.replicate 31 (requestTo "conch.joyent.us" Header.empty))).2
      = some (GoError.errorf "31 > 30 consecutive requests(redirects)") :=
  ⟨(CheckRedirect_count (requestTo "conch.joyent.us" Header.empty)
      (List.replicate 30 (requestTo "conch.joyent.us" Header.empty))).1
      (by decide) (by decide),
   (CheckRedirect_count (requestTo "conch.joyent.us" Header.empty)
      (List.replicate 31 (requestTo "conch.joyent.us" Header.empty))).2 (by decide)⟩

/-! ## Lazy initialisation and authentication (`sling`) -/

theorem jarCalls_newJar (h : Heap) (addr : Nat) :
    h.newJar.2.jarCalls addr = h.jarCalls addr := by
  simp only [Heap.newJar, Heap.jarCalls, List.getD_eq_getElem?_getD]
  by_cases hlt : addr < h.jars.length
  · rw [List.getElem?_append_left hlt]
  · have hle : h.jars.length ≤ addr := by omega
    rw [List.getElem?_append_right hle, List.getElem?_eq_none hle]
    cases hk : addr - h.jars.length with
    | zero => simp
    | succ k => simp

theorem jarCalls_SetCookies_same (h : Heap) (jar : Nat) (call : SetCookiesCall)
    (hlt : jar < h.jars.length) :
    (h.SetCookies jar call).jarCalls jar = h.jarCalls jar ++ [call] := by
  simp [Heap.SetCookies, Heap.jarCalls, List.getElem?_eq_getElem hlt]

theorem jarCalls_SetCookies_ne (h : Heap) (jar addr : Nat) (call : SetCookiesCall)
    (hne : addr ≠ jar) :
    (h.SetCookies jar call).jarCalls addr = h.jarCalls addr := by
  simp [Heap.SetCookies, Heap.jarCalls, List.getElem?_modify_ne _ _ (Ne.symm hne)]

theorem lazyInit_conch (c : Conch) (h : Heap) :
    (c.lazyInit h).1 =
      Conch.mk (if c.UA = "" then defaultUA else c.UA)
        (if c.BaseURL = "" then defaultBaseURL else c.BaseURL)
        (some (c.CookieJar.getD h.jars.length))
        (some (c.HTTPClient.getD (HTTPClient.mk h.clients Transport.defaultTransport
          (some (c.CookieJar.getD h.jars.length)) RedirectPolicy.preserveAuth)))
        c.JWToken c.Session c.Expires := by
  obtain ⟨ua, base, jar, cl, tok, sess, exp⟩ := c
  by_cases h1 : ua = "" <;> by_cases h2 : base = "" <;> cases jar <;> cases cl <;>
    simp [Conch.lazyInit, Conch.initFields, Conch.initClient, Heap.newJar, h1, h2]

theorem lazyInit_heap (c : Conch) (h : Heap) :
    (c.lazyInit h).2 =
      Heap.mk (if c.CookieJar = none then h.jars ++ [[]] else h.jars)
        (if c.HTTPClient = none then h.clients + 1 else h.clients) := by
  obtain ⟨ua, base, jar, cl, tok, sess, exp⟩ := c
  by_cases h1 : ua = "" <;> by_cases h2 : base = "" <;> cases jar <;> cases cl <;>
    simp [Conch.lazyInit, Conch.initFields, Conch.initClient, Heap.newJar, h1, h2]

theorem jarCalls_lazyInit (c : Conch) (h : Heap) (addr : Nat) :
    (c.lazyInit h).2.jarCalls addr = h.jarCalls addr := by
  rw [lazyInit_heap]
  by_cases hj : c.CookieJar = none
  · simpa [hj, Heap.newJar, Heap.jarCalls] using jarCalls_newJar h addr
  · simp [hj, Heap.jarCalls]

theorem sling_conch (c : Conch) (h : Heap) : (c.sling h).conch = (c.lazyInit h).1 := by
  unfold Conch.sling
  simp only
  split
  · rfl
  · split
    · split <;> rfl
    · rfl

/-- C5: with a non-empty bearer token the builder returned by `sling()`
carries `Authorization: Bearer <token>` and no jar receives a cookie during
the call, whether or not a session value is set; with an empty token and a
non-empty session value no `Authorization` header is set and the jar of the
client receives one `SetCookies` call for the base URL with the single
cookie `conch` whose value is the session value, every other jar being
untouched; with both empty no `Authorization` header is set and no jar
receives a cookie.  (`hjar`: a jar the caller configured is an allocated
one.) -/
theorem sling_authentication (c : Conch) (h : Heap) :
    (c.JWToken ≠ "" →
      (c.sling h).sling.header "Authorization" = some ["Bearer " ++ c.JWToken] ∧
      ∀ addr, (c.sling h).heap.jarCalls addr = h.jarCalls addr) ∧
    (c.JWToken = "" → c.Session ≠ "" → (∀ j, c.CookieJar = some j → j < h.jars.length) →
      (c.sling h).sling.header "Authorization" = none ∧
      (c.sling h).conch.CookieJar = some (c.CookieJar.getD h.jars.length) ∧
      (c.sling h).heap.jarCalls (c.CookieJar.getD h.jars.length)
        = h.jarCalls (c.CookieJar.getD h.jars.length) ++
            [SetCookiesCall.mk (c.sling h).conch.BaseURL [Cookie.mk "conch" c.Session]] ∧
      ∀ addr, addr ≠ c.CookieJar.getD h.jars.length →
        (c.sling h).heap.jarCalls addr = h.jarCalls addr) ∧
    (c.JWToken = "" → c.Session = "" →
      (c.sling h).sling.header "Authorization" = none ∧
      ∀ addr, (c.sling h).heap.jarCalls addr = h.jarCalls addr) := by
  have hc := lazyInit_conch c h
  refine ⟨?_, ?_, ?_⟩
  · intro htok
    have e : c.sling h = SlingResult.mk (c.lazyInit h).1 (c.lazyInit h).2
        (Sling.mk (c.lazyInit h).1.HTTPClient (c.lazyInit h).1.BaseURL
          ((Header.empty.Set "User-Agent" (c.lazyInit h).1.UA).Set "Authorization"
            ("Bearer " ++ (c.lazyInit h).1.JWToken))) := by
      unfold Conch.sling
      simp only
      rw [if_pos (by rw [hc]; exact htok)]
    rw [e]
    refine ⟨?_, fun addr => jarCalls_lazyInit c h addr⟩
    simp [hc, Header.Set, Header.assign]
  · intro htok hsess hjar
    have e : c.sling h = SlingResult.mk (c.lazyInit h).1
        ((c.lazyInit h).2.SetCookies (c.CookieJar.getD h.jars.length)
          (SetCookiesCall.mk (c.lazyInit h).1.BaseURL [Cookie.mk "conch" c.Session]))
        (Sling.mk (c.lazyInit h).1.HTTPClient (c.lazyInit h).1.BaseURL
          (Header.empty.Set "User-Agent" (c.lazyInit h).1.UA)) := by
      unfold Conch.sling
      simp only
      rw [if_neg (by rw [hc]; simpa using htok), if_pos (by rw [hc]; exact hsess)]
      rw [hc]
    have hlen : c.CookieJar.getD h.jars.length < (c.lazyInit h).2.jars.length := by
      rw [lazyInit_heap]
      cases hj : c.CookieJar with
      | none => simp
      | some j => simpa [hj] using hjar j hj
    rw [e]
    refine ⟨?_, ?_, ?_, ?_⟩
    · simp [Header.Set, Header.assign, Header.empty]
    · rw [hc]
    · simp only
      rw [jarCalls_SetCookies_same _ _ _ hlen, jarCalls_lazyInit]
    · intro addr hne
      simp only
      rw [jarCalls_SetCookies_ne _ _ _ _ hne, jarCalls_lazyInit]
  · intro htok hsess
    have e : c.sling h = SlingResult.mk (c.lazyInit h).1 (c.lazyInit h).2
        (Sling.mk (c.lazyInit h).1.HTTPClient (c.lazyInit h).1.BaseURL
          (Header.empty.Set "User-Agent" (c.lazyInit h).1.UA)) := by
      unfold Conch.sling
      simp only
      rw [if_neg (by rw [hc]; simpa using htok), if_neg (by rw [hc]; simpa using hsess)]
    rw [e]
    refine ⟨?_, fun addr => jarCalls_lazyInit c h addr⟩
    simp [Header.Set, Header.assign, Header.empty]

/-- Witness of C5: a client with token and session gets the bearer header
and its jar stays empty; a client with a session only gets the `conch`
cookie stored for the default base URL and no header. -/
theorem sling_authentication_witness :
    (bearerClient.sling oneJarHeap).sling.header "Authorization" = some ["Bearer abc123"] ∧
    (bearerClient.sling oneJarHeap).heap.jarCalls 0 = [] ∧
    (sessionClient.sling emptyHeap).sling.header "Authorization" = none ∧
    (sessionClient.sling emptyHeap).heap.jarCalls 0
      = [SetCookiesCall.mk "https://conch.joyent.us" [Cookie.mk "conch" "s3ss10n"]] ∧
    (∀ j, sessionJarClient.CookieJar = some j → j < oneJarHeap.jars.length) ∧
    (sessionJarClient.sling oneJarHeap).heap.jarCalls 0
      = [SetCookiesCall.mk "http://localhost:5001" [Cookie.mk "conch" "s3ss10n"]] :=
  ⟨((sling_authentication bearerClient oneJarHeap).1 (by decide)).1,
   ((sling_authentication bearerClient oneJarHeap).1 (by decide)).2 0,
   ((sling_authentication sessionClient emptyHeap).2.1 rfl (by decide)
      (fun j hj => by cases hj)).1,
   ((sling_authentication sessionClient emptyHeap).2.1 rfl (by decide)
      (fun j hj => by cases hj)).2.2.1,
   fun j hj => by cases hj; decide,
   ((sling_authentication sessionJarClient oneJarHeap).2.1 rfl (by decide)
      (fun j hj => by cases hj; decide)).2.2.1⟩

/-- C10: the lazy initialisation `sling()` performs keeps every
configuration field the caller has set (non-empty `UA` and `BaseURL`,
non-nil jar, non-nil HTTP client), gives every unset field its default
(`go-conch`, `https://conch.joyent.us`, a newly allocated jar that has
received no call, a newly built HTTP client with the default transport, the
jar of the client and the redirect policy), and is idempotent: a second run,
on whatever the heap has become, leaves the whole client struct, and so the
HTTP client in it, exactly as the first run left it. -/
theorem sling_lazy_init (c : Conch) (h : Heap) :
    (c.sling h).conch = (c.lazyInit h).1 ∧
    (c.UA ≠ "" → (c.sling h).conch.UA = c.UA) ∧
    (c.BaseURL ≠ "" → (c.sling h).conch.BaseURL = c.BaseURL) ∧
    (∀ j, c.CookieJar = some j → (c.sling h).conch.CookieJar = some j) ∧
    (∀ cl, c.HTTPClient = some cl → (c.sling h).conch.HTTPClient = some cl) ∧
    (c.UA = "" → (c.sling h).conch.UA = "go-conch") ∧
    (c.BaseURL = "" → (c.sling h).conch.BaseURL = "https://conch.joyent.us") ∧
    (c.CookieJar = none →
      (c.sling h).conch.CookieJar = some h.jars.length ∧
      (c.lazyInit h).2.jars.length = h.jars.length + 1 ∧
      (c.lazyInit h).2.jarCalls h.jars.length = []) ∧
    (c.HTTPClient = none →
      (c.sling h).conch.HTTPClient = some (HTTPClient.mk h.clients Transport.defaultTransport
        (c.sling h).conch.CookieJar RedirectPolicy.preserveAuth) ∧
      (c.sling h).heap.clients = h.clients + 1) ∧
    (∀ h2, ((c.sling h).conch.sling h2).conch = (c.sling h).conch) := by
  have hc := lazyInit_conch c h
  have hs := sling_conch c h
  refine ⟨hs, ?_, ?_, ?_, ?_, ?_, ?_, ?_, ?_, ?_⟩
  · intro hua
    rw [hs, hc]; simp [hua]
  · intro hb
    rw [hs, hc]; simp [hb]
  · intro j hj
    rw [hs, hc]; simp [hj]
  · intro cl hcl
    rw [hs, hc]; simp [hcl]
  · intro hua
    rw [hs, hc]; simp [hua, defaultUA]
  · intro hb
    rw [hs, hc]; simp [hb, defaultBaseURL]
  · intro hj
    refine ⟨by rw [hs, hc]; simp [hj], by rw [lazyInit_heap]; simp [hj], ?_⟩
    rw [jarCalls_lazyInit]
    simp [Heap.jarCalls]
  · intro hcl
    refine ⟨by rw [hs, hc]; simp [hcl], ?_⟩
    have hh : (c.sling h).heap.clients = (c.lazyInit h).2.clients := by
      unfold Conch.sling
      simp only
      split
      · rfl
      · split
        · split <;> rfl
        · rfl
    rw [hh, lazyInit_heap]; simp [hcl]
  · intro h2
    rw [sling_conch, hs, lazyInit_conch, hc]
    by_cases h1 : c.UA = "" <;> by_cases hb : c.BaseURL = "" <;>
      simp [h1, hb, defaultUA, defaultBaseURL]

/-- Witness of C10: on a client with nothing configured the four fields get
their defaults, a fully configured client is left as it is, and a second
run changes nothing. -/
theorem sling_lazy_init_witness :
    (sessionClient.sling emptyHeap).conch
      = Conch.mk "go-conch" "https://conch.joyent.us" (some 0)
          (some (HTTPClient.mk 0 Transport.defaultTransport (some 0) RedirectPolicy.preserveAuth))
          "" "s3ss10n" 0 ∧
    (bearerClient.sling oneJarHeap).conch.UA = "my-agent" ∧
    (bearerClient.sling oneJarHeap).conch.HTTPClient
      = some (HTTPClient.mk 0 (Transport.custom 1) none RedirectPolicy.unset) ∧
    ((sessionClient.sling emptyHeap).conch.sling (sessionClient.sling emptyHeap).heap).conch
      = (sessionClient.sling emptyHeap).conch :=
  ⟨(sling_lazy_init sessionClient emptyHeap).1.trans (by decide),
   (sling_lazy_init bearerClient oneJarHeap).2.1 (by decide),
   (sling_lazy_init bearerClient oneJarHeap).2.2.2.2.1 _ rfl,
   (sling_lazy_init sessionClient emptyHeap).2.2.2.2.2.2.2.2.2
     (sessionClient.sling emptyHeap).heap⟩

end ConchShell
